import Mathlib

/-!
Verification development for the ClioBulk-X core engine
(`src/cliobulk-core/src/main.rs`), a batch image-processing backend:
a RAW sub-sampled Bayer demosaicer (`decode_raw`), a fused per-pixel
filter pipeline (`apply_filters`), and a batch orchestrator (`main`).

Modelling conventions:
* machine integers (`u8`, `u16`, `usize`) are `Nat` with explicit `% 256`
  (resp. shift bounds) where the Rust code casts;
* `f32` arithmetic is modelled exactly over `ℚ`; the `as u8` cast on an
  `f32` is truncation toward zero after the clamp that the code performs;
* fallible Rust code (`anyhow::Result`) is `Except String`;
* a Rust panic (which is not a `Result` error) is a distinguished
  `DecodeOutcome.panic` constructor;
* the external collaborators (the `imageproc` median filter and adaptive
  threshold, and the `image` crate's RGB→luma conversion) are parameters
  of the pipeline model, so every theorem about the pipeline holds for
  any behaviour of those collaborators.
-/

/-- One RGB pixel, 8 bits per channel (each field is a byte value). -/
structure Pixel where
  r : Nat
  g : Nat
  b : Nat
  deriving Repr, DecidableEq

/-- Buffer with 3 channels of 8 bits (the `ImageBuffer<Rgb<u8>, _>` of the code),
row-major, `data.length = width * height`. -/
structure Rgb8Buffer where
  width : Nat
  height : Nat
  data : List Pixel
  deriving Repr, DecidableEq

/-- Buffer with 1 channel of 8 bits (`ImageBuffer<Luma<u8>, _>`). -/
structure Luma8Buffer where
  width : Nat
  height : Nat
  data : List Nat
  deriving Repr, DecidableEq

/-- The `image::DynamicImage` variants the program constructs. -/
inductive DynImage where
  | ImageRgb8 (buf : Rgb8Buffer)
  | ImageLuma8 (buf : Luma8Buffer)
  deriving Repr, DecidableEq

/-- Number of channels of the buffer held by a `DynamicImage`. -/
def DynImage.channels : DynImage → Nat
  | .ImageRgb8 _ => 3
  | .ImageLuma8 _ => 1

/-- Model of `rawloader::RawImageData`: integer (`u16`) samples or normalized
`f32` samples, exactly one encoding per frame. -/
inductive RawImageData where
  | Integer (data : List Nat)
  | Float (data : List ℚ)

/-- Result of running `decode_raw`'s demosaic on a loaded frame: either a
value, an `anyhow` error (`DecodeError`), or a Rust panic. -/
inductive DecodeOutcome (α : Type) where
  | panic
  | error (msg : String)
  | ok (val : α)
  deriving Repr, DecidableEq

/-- Model of `ImageBuffer::from_raw`: succeeds iff the flat vector has exactly
`width * height` pixels (the code checks `out_w * out_h * 3` bytes). -/
def rgb_from_raw (width height : Nat) (data : List Pixel) : Option Rgb8Buffer :=
  if data.length = width * height then some ⟨width, height, data⟩ else none

/-- Integer-encoding demosaic of the single output pixel at logical
coordinate `(x, y)`: the code reads the 2×2 quad at sensor index
`idx = (y*2)*width + (x*2)` and writes
`row[x*3] = (data[idx] >> 8) as u8`,
`row[x*3+1] = ((data[idx+1] as u32 + data[idx+width] as u32) >> 9) as u8`,
`row[x*3+2] = (data[idx+width+1] >> 8) as u8`.
The `as u8` casts are `% 256`. -/
def demosaic_int_pixel (width : Nat) (data : List Nat) (x y : Nat) : Pixel :=
  let idx := (y * 2) * width + x * 2
  { r := ((data.getD idx 0) >>> 8) % 256
    g := (((data.getD (idx + 1) 0) + (data.getD (idx + width) 0)) >>> 9) % 256
    b := ((data.getD (idx + width + 1) 0) >>> 8) % 256 }

/-- The integer-encoding output pixel list: row `y` of the output is
produced by the closure over chunk `y` of the zero-initialised vector
(`par_chunks_exact_mut(out_w * 3)`), columns `0 ≤ x < out_w`. -/
def demosaic_int (width height : Nat) (data : List Nat) : List Pixel :=
  (List.range (height / 2)).flatMap fun y =>
    (List.range (width / 2)).map fun x => demosaic_int_pixel width data x y

/-- Rust `f32::clamp(lo, hi)` over exact rationals. -/
def clampQ (v lo hi : ℚ) : ℚ := max lo (min hi v)

/-- Rust `as u8` on an `f32`: saturating cast, truncation toward zero.
All call sites clamp first, so the value is in `[0, 255]`. -/
def f32_to_u8 (v : ℚ) : Nat := min 255 (max 0 ⌊v⌋).toNat

/-- Float-encoding demosaic of the output pixel at `(x, y)`:
`row[x*3] = (data[idx].clamp(0.0,1.0) * 255.0) as u8`,
`row[x*3+1] = ((data[idx+1] + data[idx+width]) * 127.5).clamp(0.0,255.0) as u8`,
`row[x*3+2] = (data[idx+width+1].clamp(0.0,1.0) * 255.0) as u8`. -/
def demosaic_float_pixel (width : Nat) (data : List ℚ) (x y : Nat) : Pixel :=
  let idx := (y * 2) * width + x * 2
  { r := f32_to_u8 ((clampQ (data.getD idx 0) 0 1) * 255)
    g := f32_to_u8 (clampQ (((data.getD (idx + 1) 0) + (data.getD (idx + width) 0)) * (255/2)) 0 255)
    b := f32_to_u8 ((clampQ (data.getD (idx + width + 1) 0) 0 1) * 255) }

/-- Float-encoding output pixel list, same chunking as the integer case. -/
def demosaic_float (width height : Nat) (data : List ℚ) : List Pixel :=
  (List.range (height / 2)).flatMap fun y =>
    (List.range (width / 2)).map fun x => demosaic_float_pixel width data x y

/-- The demosaic part of `decode_raw` (after `rawloader::decode_file`
has produced the frame): `out_w = width / 2`, `out_h = height / 2`;
`par_chunks_exact_mut(out_w * 3)` panics when the chunk size
`out_w * 3` is zero; otherwise the filled vector is handed to
`ImageBuffer::from_raw`, whose failure becomes the
`"Failed to create image buffer"` `DecodeError`. -/
def decode_raw_data (width height : Nat) (d : RawImageData) : DecodeOutcome DynImage :=
  let out_w := width / 2
  let out_h := height / 2
  if out_w * 3 = 0 then .panic
  else
    let vec : List Pixel :=
      match d with
      | .Integer data => demosaic_int width height data
      | .Float data => demosaic_float width height data
    match rgb_from_raw out_w out_h vec with
    | some buf => .ok (.ImageRgb8 buf)
    | none => .error "Failed to create image buffer"

/-- Width of the decoded image. -/
def DynImage.width : DynImage → Nat
  | .ImageRgb8 b => b.width
  | .ImageLuma8 b => b.width

/-- Height of the decoded image. -/
def DynImage.height : DynImage → Nat
  | .ImageRgb8 b => b.height
  | .ImageLuma8 b => b.height

/-- The `ProcessOptions` of the code; the `f32` fields are exact rationals. -/
structure ProcessOptions where
  brightness : ℚ
  contrast : ℚ
  saturation : ℚ
  adaptive_threshold : Bool
  denoise : Bool
  deriving Repr, DecidableEq

/-- The `Progress` record of the wire protocol; `progress` is the `f32`
percentage, modelled exactly. -/
structure Progress where
  progress : ℚ
  current_file : String
  status : String
  deriving Repr, DecidableEq

/-- Model of `DynamicImage::to_rgb8`: an RGB image yields its own buffer, a
luma image replicates the single channel into R, G and B. -/
def to_rgb8 : DynImage → Rgb8Buffer
  | .ImageRgb8 buf => buf
  | .ImageLuma8 buf => ⟨buf.width, buf.height, buf.data.map fun v => ⟨v, v, v⟩⟩

/-- The external collaborators used by `apply_filters`:
`imageproc::filter::median_filter(·, 1, 1)`,
`imageproc::contrast::adaptive_threshold(·, block_radius)`, and the
`image` crate's `to_luma8` conversion on an RGB buffer. The pipeline
theorems hold for every behaviour of these. -/
structure ExternalOps where
  medianFilter : Rgb8Buffer → Rgb8Buffer
  adaptiveThreshold : Luma8Buffer → Nat → Luma8Buffer
  rgbToLuma : Rgb8Buffer → Luma8Buffer

/-- The fused per-pixel colour adjustment of `apply_filters`, with
`b = options.brightness * 255.0`, `c = options.contrast`,
`s = options.saturation`. Per channel the code stores
`((v - 128.0) * c + 128.0 + b).clamp(0.0, 255.0) as u8`; then, only if
`s != 1.0`, it reads the stored channels back, computes the luma
`l = 0.299 r + 0.587 g + 0.114 b` and stores
`(l + (channel - l) * s).clamp(0.0, 255.0) as u8`. -/
def color_adjust (b c s : ℚ) (p : Pixel) : Pixel :=
  let r1 : Nat := f32_to_u8 (clampQ (((p.r : ℚ) - 128) * c + 128 + b) 0 255)
  let g1 : Nat := f32_to_u8 (clampQ (((p.g : ℚ) - 128) * c + 128 + b) 0 255)
  let b1 : Nat := f32_to_u8 (clampQ (((p.b : ℚ) - 128) * c + 128 + b) 0 255)
  if s ≠ 1 then
    let r : ℚ := r1
    let g : ℚ := g1
    let bb : ℚ := b1
    let l : ℚ := (299/1000) * r + (587/1000) * g + (114/1000) * bb
    { r := f32_to_u8 (clampQ (l + (r - l) * s) 0 255)
      g := f32_to_u8 (clampQ (l + (g - l) * s) 0 255)
      b := f32_to_u8 (clampQ (l + (bb - l) * s) 0 255) }
  else
    { r := r1, g := g1, b := b1 }

/-- Map a per-pixel function over an RGB buffer (`pixels_mut()` pass). -/
def rgb_map (f : Pixel → Pixel) (buf : Rgb8Buffer) : Rgb8Buffer :=
  ⟨buf.width, buf.height, buf.data.map f⟩

/-- Model of `apply_filters`: convert to RGB; run the fused colour pass when any
of brightness/contrast/saturation is non-neutral; then the optional
median denoise; then the optional adaptive threshold, which converts to
luma and yields a single-channel image. -/
def apply_filters (ext : ExternalOps) (img : DynImage) (options : ProcessOptions) : DynImage :=
  let rgb := to_rgb8 img
  let rgb :=
    if options.brightness ≠ 0 ∨ options.contrast ≠ 1 ∨ options.saturation ≠ 1 then
      rgb_map (color_adjust (options.brightness * 255) options.contrast options.saturation) rgb
    else rgb
  let final1 : DynImage := .ImageRgb8 rgb
  let final2 : DynImage :=
    if options.denoise then
      match final1 with
      | .ImageRgb8 rgb_inner => .ImageRgb8 (ext.medianFilter rgb_inner)
      | other => other
    else final1
  if options.adaptive_threshold then
    let luma :=
      match final2 with
      | .ImageRgb8 b => ext.rgbToLuma b
      | .ImageLuma8 b => b
    .ImageLuma8 (ext.adaptiveThreshold luma 10)
  else final2

/-- Spec-side brightness/contrast step (§4.1 of the spec): per channel
`v' = clamp((v − 128) × contrast + 128 + brightness×255, 0, 255)`,
stored as an 8-bit channel value. -/
def bc_step_spec (brightness contrast : ℚ) (p : Pixel) : Pixel :=
  { r := f32_to_u8 (clampQ (((p.r : ℚ) - 128) * contrast + 128 + brightness * 255) 0 255)
    g := f32_to_u8 (clampQ (((p.g : ℚ) - 128) * contrast + 128 + brightness * 255) 0 255)
    b := f32_to_u8 (clampQ (((p.b : ℚ) - 128) * contrast + 128 + brightness * 255) 0 255) }

/-- Spec-side saturation step: luma `L = 0.299R' + 0.587G' + 0.114B'`
from the post-brightness/contrast channel values, then per channel
`c'' = clamp(L + (c' − L) × saturation, 0, 255)`. -/
def sat_step_spec (saturation : ℚ) (p : Pixel) : Pixel :=
  let l : ℚ := (299/1000) * (p.r : ℚ) + (587/1000) * (p.g : ℚ) + (114/1000) * (p.b : ℚ)
  { r := f32_to_u8 (clampQ (l + ((p.r : ℚ) - l) * saturation) 0 255)
    g := f32_to_u8 (clampQ (l + ((p.g : ℚ) - l) * saturation) 0 255)
    b := f32_to_u8 (clampQ (l + ((p.b : ℚ) - l) * saturation) 0 255) }

/-- Per-item external environment of the batch loop: the derived file
name (`path.file_name()`, `"unknown"` when absent), the outcome of the
decode step (`decode_raw` or `image::open`), and the outcome of
`img.save(out_path)` as a function of the image being saved. -/
structure ItemEnv where
  name : String
  decodeRes : Except String DynImage
  saveRes : DynImage → Except String Unit

/-- Output naming of the orchestrator: `processed_<name>.jpg`. -/
def out_path (name : String) : String := "processed_" ++ name ++ ".jpg"

/-- The fallible closure run for one item: decode, filter, save.
`apply_filters` itself is total; the result is `ok` exactly when the
item's output file was written. -/
def process_item (ext : ExternalOps) (options : ProcessOptions) (env : ItemEnv) : Except String Unit :=
  match env.decodeRes with
  | .error e => .error e
  | .ok img => env.saveRes (apply_filters ext img options)

/-- One iteration of the parallel loop, for the item that drew
pre-increment counter value `c`: first the `"processing"` record with
percentage `(c as f32 / total as f32) * 100.0`, then the closure; on
`Err(e)` the `"error: <e>"` record recomputing
`(c as f32 / total as f32) * 100.0`. Returns the emitted records and
the output file written, if any. -/
def run_item (total c : Nat) (ext : ExternalOps) (options : ProcessOptions) (env : ItemEnv) :
    List Progress × Option String :=
  let procRec : Progress := ⟨(c : ℚ) / (total : ℚ) * 100, env.name, "processing"⟩
  match process_item ext options env with
  | .ok _ => ([procRec], some (out_path env.name))
  | .error e =>
      ([procRec, ⟨(c : ℚ) / (total : ℚ) * 100, env.name, "error: " ++ e⟩], none)

/-- The final record printed after the join barrier. -/
def done_record : Progress := ⟨100, "Done", "complete"⟩

/-- The batch loop over all items followed by the completion record.
The parallel loop is sequentialised in dispatch order: the atomic
`fetch_add` hands the `i`-th dispatched item the counter value `i`.
Returns the full record stream and the list of written output files. -/
def run_batch (ext : ExternalOps) (options : ProcessOptions) (envs : List ItemEnv) :
    List Progress × List String :=
  let total := envs.length
  let results := envs.enum.map fun ce => run_item total ce.1 ext options ce.2
  (results.flatMap Prod.fst ++ [done_record], results.filterMap Prod.snd)

/-- Pre-batch external environment of `main`: options JSON parse, input
specification resolution (manifest read/parse or comma split, plus the
per-item filesystem behaviour), and output directory creation. -/
structure MainEnv where
  optionsParse : Except String ProcessOptions
  inputsResolve : Except String (List ItemEnv)
  createDir : Except String Unit

/-- Model of `main`: the three fallible pre-batch steps in program order, then
the infallible batch loop and completion record. The process exits
zero exactly when the result is `ok`. -/
def main_model (ext : ExternalOps) (env : MainEnv) : Except String (List Progress × List String) := do
  let options ← env.optionsParse
  let items ← env.inputsResolve
  let _ ← env.createDir
  pure (run_batch ext options items)

/-- Status test for a `"processing"` record. -/
def isProcessingRec (p : Progress) : Bool := p.status = "processing"

/-- Status test for an `"error: <message>"` record (prefix test on the
underlying character list). -/
def isErrorRec (p : Progress) : Bool := "error: ".data.isPrefixOf p.status.data

/-- Status test for the `"complete"` record. -/
def isCompleteRec (p : Progress) : Bool := p.status = "complete"

/-- A concrete instantiation of the external collaborators, used for
closed witnesses (the theorems hold for every instantiation). -/
def ext0 : ExternalOps :=
  ⟨id, fun b _ => b, fun b => ⟨b.width, b.height, b.data.map Pixel.r⟩⟩

/-- The neutral options value. -/
def neutral_options : ProcessOptions := ⟨0, 1, 1, false, false⟩

/-- Whether the item's closure succeeded, i.e. its output file was
written. -/
def item_ok (ext : ExternalOps) (options : ProcessOptions) (env : ItemEnv) : Bool :=
  match process_item ext options env with
  | .ok _ => true
  | .error _ => false

/-- The output file the item writes: `some` of its `processed_...jpg`
path when the closure succeeds, `none` when it fails. -/
def item_file (ext : ExternalOps) (options : ProcessOptions) (env : ItemEnv) : Option String :=
  match process_item ext options env with
  | .ok _ => some (out_path env.name)
  | .error _ => none

/-! ## Helper lemmas -/

/-- Length of a row-major rectangle built by `flatMap` over row indices. -/
theorem flatMap_rect_length {α : Type} (g : Nat → List α) (cols : Nat)
    (hg : ∀ j, (g j).length = cols) (rows : Nat) :
    ((List.range rows).flatMap g).length = rows * cols := by
  induction rows with
  | zero => simp
  | succ n ih =>
    rw [List.range_succ, List.flatMap_append]
    simp [ih, hg, Nat.succ_mul]

/-- Row-major indexing into a rectangle built by `flatMap`. -/
theorem flatMap_rect_getD {α : Type} (g : Nat → List α) (cols : Nat)
    (hg : ∀ j, (g j).length = cols) (rows x y : Nat) (d : α)
    (hx : x < cols) (hy : y < rows) :
    ((List.range rows).flatMap g).getD (y * cols + x) d = (g y).getD x d := by
  induction rows with
  | zero => exact absurd hy (Nat.not_lt_zero y)
  | succ n ih =>
    rw [List.range_succ, List.flatMap_append]
    simp only [List.flatMap_cons, List.flatMap_nil, List.append_nil]
    have hlen : ((List.range n).flatMap g).length = n * cols :=
      flatMap_rect_length g cols hg n
    by_cases h : y < n
    · have hlt : y * cols + x < ((List.range n).flatMap g).length := by
        rw [hlen]
        calc y * cols + x < y * cols + cols := by omega
          _ = (y + 1) * cols := by ring
          _ ≤ n * cols := Nat.mul_le_mul_right cols h
      rw [List.getD_append _ _ _ _ hlt]
      exact ih h
    · have hyn : y = n := by omega
      subst hyn
      have hge : ((List.range y).flatMap g).length ≤ y * cols + x := by omega
      rw [List.getD_append_right _ _ _ _ hge]
      congr 1
      omega

/-- Indexing into a `map` over `range`. -/
theorem getD_map_range {α : Type} (f : Nat → α) (n x : Nat) (d : α) (hx : x < n) :
    ((List.range n).map f).getD x d = f x := by
  rw [List.getD_eq_getElem _ _ (by simpa using hx)]
  simp

/-- Length of the integer demosaic output: `out_h` rows of `out_w` pixels. -/
theorem demosaic_int_length (w h : Nat) (data : List Nat) :
    (demosaic_int w h data).length = (h / 2) * (w / 2) :=
  flatMap_rect_length _ _ (fun _ => by simp) _

/-- Length of the float demosaic output. -/
theorem demosaic_float_length (w h : Nat) (data : List ℚ) :
    (demosaic_float w h data).length = (h / 2) * (w / 2) :=
  flatMap_rect_length _ _ (fun _ => by simp) _

/-! ## Claim theorems -/

/-- C1: for every RAW frame with integer-encoded samples and every output
pixel at logical coordinate `(x, y)`, the decoder reads the 2×2 quad at
sensor coordinate `(2x, 2y)` and produces exactly
`R = top-left >> 8`, `G = (top-right + bottom-left) >> 9`,
`B = bottom-right >> 8`, each truncated to 8 bits. -/
theorem decode_raw_int_pixel_formula (w h : Nat) (data : List Nat) (x y : Nat)
    (_hlen : data.length = w * h) (hx : x < w / 2) (hy : y < h / 2) :
    ∃ buf, decode_raw_data w h (.Integer data) = .ok (.ImageRgb8 buf) ∧
      buf.data.getD (y * (w / 2) + x) ⟨0, 0, 0⟩ =
        { r := ((data.getD (2 * y * w + 2 * x) 0) >>> 8) % 256
          g := (((data.getD (2 * y * w + 2 * x + 1) 0) +
                 (data.getD (2 * y * w + 2 * x + w) 0)) >>> 9) % 256
          b := ((data.getD (2 * y * w + 2 * x + w + 1) 0) >>> 8) % 256 } := by
  have hz : ¬ (w / 2 * 3 = 0) := by omega
  refine ⟨⟨w / 2, h / 2, demosaic_int w h data⟩, ?_, ?_⟩
  · simp only [decode_raw_data]
    rw [if_neg hz]
    unfold rgb_from_raw
    rw [if_pos (by rw [demosaic_int_length]; ring)]
  · show (demosaic_int w h data).getD (y * (w / 2) + x) ⟨0, 0, 0⟩ = _
    unfold demosaic_int
    rw [flatMap_rect_getD _ _ (fun _ => by simp) _ x y _ hx hy]
    rw [getD_map_range _ _ _ _ hx]
    unfold demosaic_int_pixel
    have e0 : y * 2 * w + x * 2 = 2 * y * w + 2 * x := by ring
    have e1 : y * 2 * w + x * 2 + 1 = 2 * y * w + 2 * x + 1 := by ring
    have e2 : y * 2 * w + x * 2 + w = 2 * y * w + 2 * x + w := by ring
    have e3 : y * 2 * w + x * 2 + w + 1 = 2 * y * w + 2 * x + w + 1 := by ring
    simp only [e0, e1, e2, e3]

/-- C1 witness: a concrete 2×2 frame with samples 256, 512, 1024, 2048;
the single output pixel is `(1, 3, 8)`. -/
theorem decode_raw_int_pixel_formula_witness :
    ∃ buf, decode_raw_data 2 2 (.Integer [256, 512, 1024, 2048]) = .ok (.ImageRgb8 buf) ∧
      buf.data.getD 0 ⟨0, 0, 0⟩ =
        { r := (((([256, 512, 1024, 2048] : List Nat).getD 0 0)) >>> 8) % 256
          g := (((([256, 512, 1024, 2048] : List Nat).getD 1 0) +
                 (([256, 512, 1024, 2048] : List Nat).getD 2 0)) >>> 9) % 256
          b := (((([256, 512, 1024, 2048] : List Nat).getD 3 0)) >>> 8) % 256 } := by
  have := decode_raw_int_pixel_formula 2 2 [256, 512, 1024, 2048] 0 0
    (by decide) (by decide) (by decide)
  simpa using this

/-- C7: whenever `decode_raw`'s demosaic returns an output image (for
either sample encoding), its dimensions are exactly
`floor(width/2) × floor(height/2)`. -/
theorem decode_raw_dims (w h : Nat) (d : RawImageData) (img : DynImage)
    (hok : decode_raw_data w h d = .ok img) :
    img.width = w / 2 ∧ img.height = h / 2 := by
  cases d with
  | Integer data =>
    simp only [decode_raw_data] at hok
    by_cases hz : w / 2 * 3 = 0
    · rw [if_pos hz] at hok; simp at hok
    · rw [if_neg hz] at hok
      unfold rgb_from_raw at hok
      by_cases hl : (demosaic_int w h data).length = w / 2 * (h / 2)
      · rw [if_pos hl] at hok
        cases hok
        exact ⟨rfl, rfl⟩
      · rw [if_neg hl] at hok
        simp at hok
  | Float data =>
    simp only [decode_raw_data] at hok
    by_cases hz : w / 2 * 3 = 0
    · rw [if_pos hz] at hok; simp at hok
    · rw [if_neg hz] at hok
      unfold rgb_from_raw at hok
      by_cases hl : (demosaic_float w h data).length = w / 2 * (h / 2)
      · rw [if_pos hl] at hok
        cases hok
        exact ⟨rfl, rfl⟩
      · rw [if_neg hl] at hok
        simp at hok

/-- C7 witness: a 5×3 integer frame decodes to a 2×1 image. -/
theorem decode_raw_dims_witness :
    (DynImage.ImageRgb8 ⟨2, 1, demosaic_int 5 3 (List.replicate 15 0)⟩).width = 5 / 2 ∧
    (DynImage.ImageRgb8 ⟨2, 1, demosaic_int 5 3 (List.replicate 15 0)⟩).height = 3 / 2 :=
  decode_raw_dims 5 3 (.Integer (List.replicate 15 0)) _ (by decide)

/-- C9: `decode_raw` is total only for sensor width at least 2: for a
frame of width 0 or 1 the output row width `width / 2` is 0, the chunk
size `out_w * 3` handed to `par_chunks_exact_mut` is 0, and the call
panics (for both encodings) instead of returning a `DecodeError`; for
width at least 2 no panic occurs. -/
theorem decode_raw_narrow_width_panics (w h : Nat) (data : List Nat) (fdata : List ℚ) :
    (w < 2 →
      decode_raw_data w h (.Integer data) = .panic ∧
      decode_raw_data w h (.Float fdata) = .panic) ∧
    (2 ≤ w →
      decode_raw_data w h (.Integer data) ≠ .panic ∧
      decode_raw_data w h (.Float fdata) ≠ .panic) := by
  constructor
  · intro hw
    have hz : w / 2 * 3 = 0 := by omega
    constructor <;> (simp only [decode_raw_data]; rw [if_pos hz])
  · intro hw
    have hz : ¬ (w / 2 * 3 = 0) := by omega
    constructor <;> (simp only [decode_raw_data]; rw [if_neg hz])
    · cases hr : rgb_from_raw (w / 2) (h / 2) (demosaic_int w h data) <;> simp
    · cases hr : rgb_from_raw (w / 2) (h / 2) (demosaic_float w h fdata) <;> simp

/-- C9 witness: width 1 panics, width 2 does not. -/
theorem decode_raw_narrow_width_panics_witness :
    (decode_raw_data 1 2 (.Integer [0, 0]) = .panic ∧
     decode_raw_data 1 2 (.Float [0, 0]) = .panic) ∧
    (decode_raw_data 2 2 (.Integer [0, 0, 0, 0]) ≠ .panic ∧
     decode_raw_data 2 2 (.Float [0, 0, 0, 0]) ≠ .panic) :=
  ⟨(decode_raw_narrow_width_panics 1 2 [0, 0] [0, 0]).1 (by decide),
   (decode_raw_narrow_width_panics 2 2 [0, 0, 0, 0] [0, 0, 0, 0]).2 (by decide)⟩

/-- C2 counterexample: the claim quantifies over every input buffer, but
`apply_filters` converts the input to RGB before any stage runs, so on a
1×1 single-channel (luma) buffer with all-neutral options the output is
an RGB image, not the input buffer. -/
theorem apply_filters_not_identity_on_luma :
    apply_filters ext0 (.ImageLuma8 ⟨1, 1, [5]⟩) neutral_options ≠ .ImageLuma8 ⟨1, 1, [5]⟩ := by
  decide

/-- C2 (amended: restricted to 3-channel RGB buffers): for every RGB
input buffer, `apply_filters` with brightness 0, contrast 1,
saturation 1, `adaptive_threshold = false`, `denoise = false` returns
the buffer unchanged, for any behaviour of the external collaborators. -/
theorem apply_filters_neutral_identity (ext : ExternalOps) (buf : Rgb8Buffer)
    (options : ProcessOptions)
    (hb : options.brightness = 0) (hc : options.contrast = 1) (hs : options.saturation = 1)
    (hat : options.adaptive_threshold = false) (hd : options.denoise = false) :
    apply_filters ext (.ImageRgb8 buf) options = .ImageRgb8 buf := by
  simp [apply_filters, to_rgb8, hb, hc, hs, hat, hd]

/-- C2 witness: a concrete 1×1 RGB buffer with the neutral options. -/
theorem apply_filters_neutral_identity_witness :
    apply_filters ext0 (.ImageRgb8 ⟨1, 1, [⟨3, 4, 5⟩]⟩) neutral_options =
      .ImageRgb8 ⟨1, 1, [⟨3, 4, 5⟩]⟩ :=
  apply_filters_neutral_identity ext0 ⟨1, 1, [⟨3, 4, 5⟩]⟩ neutral_options rfl rfl rfl rfl rfl

/-- C6: for every pixel and every options value with saturation ≠ 1, the
fused colour-adjust of `apply_filters` equals the spec's two sequential
sub-steps: first `v' = clamp((v − 128)·contrast + 128 + brightness·255,
0, 255)` per channel, then the saturation step whose luma
`L = 0.299R' + 0.587G' + 0.114B'` is computed from the
post-brightness/contrast channel values. -/
theorem color_adjust_is_bc_then_saturation (options : ProcessOptions) (p : Pixel)
    (hs : options.saturation ≠ 1) :
    color_adjust (options.brightness * 255) options.contrast options.saturation p =
      sat_step_spec options.saturation (bc_step_spec options.brightness options.contrast p) := by
  simp only [color_adjust, bc_step_spec, sat_step_spec]
  rw [if_pos hs]

/-- C6 witness: pixel `(10, 20, 30)`, brightness 0.1, contrast 1.5,
saturation 2. -/
theorem color_adjust_is_bc_then_saturation_witness :
    color_adjust ((⟨1/10, 3/2, 2, false, false⟩ : ProcessOptions).brightness * 255)
        (⟨1/10, 3/2, 2, false, false⟩ : ProcessOptions).contrast
        (⟨1/10, 3/2, 2, false, false⟩ : ProcessOptions).saturation ⟨10, 20, 30⟩ =
      sat_step_spec (2 : ℚ) (bc_step_spec (1/10 : ℚ) (3/2 : ℚ) ⟨10, 20, 30⟩) :=
  color_adjust_is_bc_then_saturation ⟨1/10, 3/2, 2, false, false⟩ ⟨10, 20, 30⟩ (by norm_num)

/-- C10: `apply_filters` converts its input to 3-channel RGB before any
stage, so the output has 3 channels unless `adaptive_threshold` is set,
in which case it has 1; in particular on a grayscale input with
all-neutral options the output's channel layout differs from the
input's. -/
theorem apply_filters_channel_layout :
    (∀ (ext : ExternalOps) (img : DynImage) (options : ProcessOptions),
      (apply_filters ext img options).channels =
        if options.adaptive_threshold then 1 else 3) ∧
    (apply_filters ext0 (.ImageLuma8 ⟨1, 1, [5]⟩) neutral_options).channels ≠
      (DynImage.ImageLuma8 ⟨1, 1, [5]⟩).channels := by
  constructor
  · intro ext img options
    unfold apply_filters
    by_cases hat : options.adaptive_threshold <;>
      by_cases hd : options.denoise <;>
        simp [hat, hd, DynImage.channels]
  · decide

/-- The file an item writes does not depend on its counter value. -/
theorem run_item_snd (total c : Nat) (ext : ExternalOps) (options : ProcessOptions)
    (env : ItemEnv) :
    (run_item total c ext options env).2 = item_file ext options env := by
  unfold run_item item_file
  cases process_item ext options env <;> rfl

/-- Characterisation of `item_file` in terms of `item_ok`. -/
theorem item_file_eq (ext : ExternalOps) (options : ProcessOptions) (e : ItemEnv) :
    item_file ext options e =
      if item_ok ext options e then some (out_path e.name) else none := by
  unfold item_file item_ok
  cases process_item ext options e <;> rfl

/-- The written files of the loop, independent of the enumeration base. -/
theorem run_batch_files_aux (ext : ExternalOps) (options : ProcessOptions) (total : Nat) :
    ∀ (n : Nat) (l : List ItemEnv),
      ((List.enumFrom n l).map (fun ce => run_item total ce.1 ext options ce.2)).filterMap
          Prod.snd
        = l.filterMap (item_file ext options) := by
  intro n l
  induction l generalizing n with
  | nil => rfl
  | cons e l ih =>
    simp only [List.enumFrom, List.map_cons, List.filterMap_cons, run_item_snd]
    cases hf : item_file ext options e <;> simp [ih]

/-- The batch writes exactly the files of its succeeding items. -/
theorem run_batch_files (ext : ExternalOps) (options : ProcessOptions) (envs : List ItemEnv) :
    (run_batch ext options envs).2 = envs.filterMap (item_file ext options) := by
  simp only [run_batch]
  exact run_batch_files_aux ext options envs.length 0 envs

/-- When every item of a list succeeds, the written files are exactly
its items' output paths. -/
theorem filterMap_item_file_all_ok (ext : ExternalOps) (options : ProcessOptions) :
    ∀ (l : List ItemEnv), (∀ x ∈ l, item_ok ext options x = true) →
      l.filterMap (item_file ext options) = l.map (fun e => out_path e.name) := by
  intro l h
  induction l with
  | nil => rfl
  | cons e l ih =>
    have he : item_ok ext options e = true := h e (List.mem_cons_self e l)
    have hrest := ih (fun x hx => h x (List.mem_cons_of_mem e hx))
    simp [List.filterMap_cons, item_file_eq, he, hrest]

/-- Output naming is injective in the item name. -/
theorem out_path_injective (a b : String) (h : out_path a = out_path b) : a = b := by
  have hd := congrArg String.data h
  simp only [out_path, String.data_append] at hd
  exact String.ext (List.append_cancel_left (List.append_cancel_right hd))

/-- An `"error: <msg>"` status is never `"processing"`. -/
theorem err_status_ne_processing (msg : String) : ("error: " ++ msg) ≠ "processing" := by
  intro hcontra
  have h2 := congrArg String.data hcontra
  rw [String.data_append] at h2
  simp at h2

/-- An `"error: <msg>"` status is never `"complete"`. -/
theorem err_status_ne_complete (msg : String) : ("error: " ++ msg) ≠ "complete" := by
  intro hcontra
  have h2 := congrArg String.data hcontra
  rw [String.data_append] at h2
  simp at h2

/-- Every `"error: <msg>"` record tests as an error record. -/
theorem isErrorRec_err (pct : ℚ) (name msg : String) :
    isErrorRec ⟨pct, name, "error: " ++ msg⟩ = true := by
  unfold isErrorRec
  rw [String.data_append]
  simp [List.isPrefixOf]

/-- Each item's records contain exactly one `"processing"` record. -/
theorem run_item_countP_processing (total c : Nat) (ext : ExternalOps)
    (options : ProcessOptions) (env : ItemEnv) :
    (run_item total c ext options env).1.countP isProcessingRec = 1 := by
  unfold run_item
  cases hp : process_item ext options env with
  | ok u => simp [isProcessingRec]
  | error e => simp [isProcessingRec, err_status_ne_processing e]

/-- Each item's records contain at most one error record. -/
theorem run_item_countP_error (total c : Nat) (ext : ExternalOps)
    (options : ProcessOptions) (env : ItemEnv) :
    (run_item total c ext options env).1.countP isErrorRec ≤ 1 := by
  unfold run_item
  cases hp : process_item ext options env with
  | ok u => simp [isErrorRec]
  | error e => simp [isErrorRec]

/-- No item record is a `"complete"` record. -/
theorem run_item_countP_complete (total c : Nat) (ext : ExternalOps)
    (options : ProcessOptions) (env : ItemEnv) :
    (run_item total c ext options env).1.countP isCompleteRec = 0 := by
  unfold run_item
  cases hp : process_item ext options env with
  | ok u => simp [isCompleteRec]
  | error e => simp [isCompleteRec, err_status_ne_complete e]

/-- A `countP` of a `flatMap` all of whose pieces contain no match is zero. -/
theorem countP_flatMap_zero {α β : Type} (l : List α) (f : α → List β) (p : β → Bool)
    (h : ∀ a ∈ l, ((f a).countP p) = 0) : ((l.flatMap f).countP p) = 0 := by
  induction l with
  | nil => rfl
  | cons a l ih =>
    rw [List.flatMap_cons, List.countP_append]
    rw [h a (List.mem_cons_self a l), ih (fun x hx => h x (List.mem_cons_of_mem a hx))]

/-- C3: the `"processing"` record of the item that drew pre-increment
counter value `c` carries percentage `c / N × 100`, and when the item
fails its `"error: <message>"` record carries exactly the same
percentage. -/
theorem run_item_error_same_percentage (total c : Nat) (ext : ExternalOps)
    (options : ProcessOptions) (env : ItemEnv) :
    (process_item ext options env = .ok () →
      (run_item total c ext options env).1 =
        [⟨(c : ℚ) / (total : ℚ) * 100, env.name, "processing"⟩]) ∧
    (∀ msg, process_item ext options env = .error msg →
      (run_item total c ext options env).1 =
        [⟨(c : ℚ) / (total : ℚ) * 100, env.name, "processing"⟩,
         ⟨(c : ℚ) / (total : ℚ) * 100, env.name, "error: " ++ msg⟩]) := by
  constructor
  · intro hp
    unfold run_item
    rw [hp]
  · intro msg hp
    unfold run_item
    rw [hp]

/-- C3 witness: item `"f.png"` with counter value 1 in a batch of 4,
whose decode fails with `"boom"`: both records carry percentage
`1/4 × 100`. -/
theorem run_item_error_same_percentage_witness :
    (run_item 4 1 ext0 neutral_options ⟨"f.png", .error "boom", fun _ => .ok ()⟩).1 =
      [⟨((1 : Nat) : ℚ) / ((4 : Nat) : ℚ) * 100, "f.png", "processing"⟩,
       ⟨((1 : Nat) : ℚ) / ((4 : Nat) : ℚ) * 100, "f.png", "error: " ++ "boom"⟩] :=
  (run_item_error_same_percentage 4 1 ext0 neutral_options
    ⟨"f.png", .error "boom", fun _ => .ok ()⟩).2 "boom" rfl

/-- C4: in a batch in which exactly one item fails (item `e`, every item
of the prefix `l₁` and suffix `l₂` succeeding) and item names are
distinct, the orchestrator writes exactly `N − 1` output files and no
output file is written for the failed item. -/
theorem one_failure_writes_all_but_one (ext : ExternalOps) (options : ProcessOptions)
    (l₁ l₂ : List ItemEnv) (e : ItemEnv)
    (hfail : item_ok ext options e = false)
    (h₁ : ∀ x ∈ l₁, item_ok ext options x = true)
    (h₂ : ∀ x ∈ l₂, item_ok ext options x = true)
    (hname : ∀ x ∈ l₁ ++ l₂, x.name ≠ e.name) :
    ((run_batch ext options (l₁ ++ e :: l₂)).2).length = (l₁ ++ e :: l₂).length - 1 ∧
    out_path e.name ∉ (run_batch ext options (l₁ ++ e :: l₂)).2 := by
  have hfe : item_file ext options e = none := by
    rw [item_file_eq, hfail]
    rfl
  have hfiles : (run_batch ext options (l₁ ++ e :: l₂)).2 =
      l₁.map (fun x => out_path x.name) ++ l₂.map (fun x => out_path x.name) := by
    rw [run_batch_files, List.filterMap_append]
    rw [filterMap_item_file_all_ok ext options l₁ h₁]
    simp [List.filterMap_cons, hfe, filterMap_item_file_all_ok ext options l₂ h₂]
  constructor
  · rw [hfiles]
    simp only [List.length_append, List.length_map, List.length_cons]
    omega
  · rw [hfiles]
    intro hmem
    rcases List.mem_append.mp hmem with hm | hm
    · rcases List.mem_map.mp hm with ⟨x, hx, hxe⟩
      exact hname x (List.mem_append_left l₂ hx) (out_path_injective _ _ hxe)
    · rcases List.mem_map.mp hm with ⟨x, hx, hxe⟩
      exact hname x (List.mem_append_right l₁ hx) (out_path_injective _ _ hxe)

/-- C4 witness: a 3-item batch whose middle item fails at decode writes
exactly 2 files, neither of them the failed item's. -/
theorem one_failure_writes_all_but_one_witness :
    ((run_batch ext0 neutral_options
        ([⟨"a.png", .ok (.ImageRgb8 ⟨1, 1, [⟨0, 0, 0⟩]⟩), fun _ => .ok ()⟩] ++
          ⟨"b.png", .error "decode failed", fun _ => .ok ()⟩ ::
          [⟨"c.png", .ok (.ImageRgb8 ⟨1, 1, [⟨0, 0, 0⟩]⟩), fun _ => .ok ()⟩])).2).length =
      (([⟨"a.png", .ok (.ImageRgb8 ⟨1, 1, [⟨0, 0, 0⟩]⟩), fun _ => .ok ()⟩] ++
        ⟨"b.png", .error "decode failed", fun _ => .ok ()⟩ ::
        [⟨"c.png", .ok (.ImageRgb8 ⟨1, 1, [⟨0, 0, 0⟩]⟩), fun _ => .ok ()⟩] :
          List ItemEnv)).length - 1 ∧
    out_path "b.png" ∉
      (run_batch ext0 neutral_options
        ([⟨"a.png", .ok (.ImageRgb8 ⟨1, 1, [⟨0, 0, 0⟩]⟩), fun _ => .ok ()⟩] ++
          ⟨"b.png", .error "decode failed", fun _ => .ok ()⟩ ::
          [⟨"c.png", .ok (.ImageRgb8 ⟨1, 1, [⟨0, 0, 0⟩]⟩), fun _ => .ok ()⟩])).2 :=
  one_failure_writes_all_but_one ext0 neutral_options
    [⟨"a.png", .ok (.ImageRgb8 ⟨1, 1, [⟨0, 0, 0⟩]⟩), fun _ => .ok ()⟩]
    [⟨"c.png", .ok (.ImageRgb8 ⟨1, 1, [⟨0, 0, 0⟩]⟩), fun _ => .ok ()⟩]
    ⟨"b.png", .error "decode failed", fun _ => .ok ()⟩
    (by decide) (by decide) (by decide) (by decide)

/-- C5: once the three fallible pre-batch steps have succeeded the
process exits zero (`main` returns `ok`) whatever the per-item
outcomes, and a failing item is reported by an in-band
`"error: <message>"` record in the emitted stream. -/
theorem main_loop_exits_zero (ext : ExternalOps) (env : MainEnv)
    (o : ProcessOptions) (its : List ItemEnv)
    (h1 : env.optionsParse = .ok o) (h2 : env.inputsResolve = .ok its)
    (h3 : env.createDir = .ok ()) :
    main_model ext env = .ok (run_batch ext o its) ∧
    ∀ (i : Nat) (hi : i < its.length) (msg : String),
      process_item ext o (its.get ⟨i, hi⟩) = .error msg →
      (⟨(i : ℚ) / (its.length : ℚ) * 100, (its.get ⟨i, hi⟩).name, "error: " ++ msg⟩ : Progress)
        ∈ (run_batch ext o its).1 := by
  constructor
  · unfold main_model
    rw [h1, h2, h3]
    rfl
  · intro i hi msg hp
    simp only [run_batch]
    apply List.mem_append_left
    apply List.mem_flatMap.mpr
    refine ⟨run_item its.length i ext o (its.get ⟨i, hi⟩), ?_, ?_⟩
    · apply List.mem_map.mpr
      refine ⟨(i, its.get ⟨i, hi⟩), ?_, rfl⟩
      have h2' : i < its.enum.length := by simpa using hi
      have h3' := List.getElem_enum its i h2'
      have hm : its.enum[i] ∈ its.enum := List.getElem_mem h2'
      rw [h3'] at hm
      simpa using hm
    · unfold run_item
      rw [hp]
      simp

/-- C5 witness: a single-item batch whose item fails at decode; `main`
still returns `ok` and the error record is in the stream. -/
theorem main_loop_exits_zero_witness :
    main_model ext0 ⟨.ok neutral_options,
        .ok [⟨"x.png", .error "no such file", fun _ => .ok ()⟩], .ok ()⟩ =
      .ok (run_batch ext0 neutral_options
        [⟨"x.png", .error "no such file", fun _ => .ok ()⟩]) ∧
    (⟨((0 : Nat) : ℚ) / ((1 : Nat) : ℚ) * 100, "x.png", "error: " ++ "no such file"⟩ : Progress) ∈
      (run_batch ext0 neutral_options
        [⟨"x.png", .error "no such file", fun _ => .ok ()⟩]).1 := by
  have h := main_loop_exits_zero ext0
    ⟨.ok neutral_options, .ok [⟨"x.png", .error "no such file", fun _ => .ok ()⟩], .ok ()⟩
    neutral_options [⟨"x.png", .error "no such file", fun _ => .ok ()⟩] rfl rfl rfl
  exact ⟨h.1, h.2 0 (by decide) "no such file" rfl⟩

/-- C8: each item contributes exactly one `"processing"` record and at
most one error record; the full stream contains exactly one
`"complete"` record, which is its last record, with percentage 100 and
filename `"Done"`. -/
theorem batch_record_discipline (ext : ExternalOps) (options : ProcessOptions)
    (envs : List ItemEnv) :
    (∀ (i : Nat) (hi : i < envs.length),
      (run_item envs.length i ext options (envs.get ⟨i, hi⟩)).1.countP isProcessingRec = 1 ∧
      (run_item envs.length i ext options (envs.get ⟨i, hi⟩)).1.countP isErrorRec ≤ 1) ∧
    (run_batch ext options envs).1.countP isCompleteRec = 1 ∧
    (run_batch ext options envs).1.getLast? = some ⟨100, "Done", "complete"⟩ := by
  refine ⟨fun i hi => ⟨run_item_countP_processing _ _ _ _ _,
    run_item_countP_error _ _ _ _ _⟩, ?_, ?_⟩
  · simp only [run_batch]
    rw [List.countP_append]
    rw [countP_flatMap_zero _ _ _ ?side]
    case side =>
      intro pr hpr
      rcases List.mem_map.mp hpr with ⟨ce, _, rfl⟩
      exact run_item_countP_complete _ _ _ _ _
    simp [done_record, isCompleteRec]
  · simp only [run_batch]
    exact List.getLast?_concat _

/-- C8 witness: a two-item batch, first item succeeding, second failing
at decode. -/
theorem batch_record_discipline_witness :
    ((run_item 2 0 ext0 neutral_options
        ⟨"a.png", .ok (.ImageRgb8 ⟨1, 1, [⟨0, 0, 0⟩]⟩), fun _ => .ok ()⟩).1.countP
        isProcessingRec = 1 ∧
      (run_item 2 0 ext0 neutral_options
        ⟨"a.png", .ok (.ImageRgb8 ⟨1, 1, [⟨0, 0, 0⟩]⟩), fun _ => .ok ()⟩).1.countP
        isErrorRec ≤ 1) ∧
    (run_batch ext0 neutral_options
        [⟨"a.png", .ok (.ImageRgb8 ⟨1, 1, [⟨0, 0, 0⟩]⟩), fun _ => .ok ()⟩,
         ⟨"b.png", .error "boom", fun _ => .ok ()⟩]).1.countP isCompleteRec = 1 ∧
    (run_batch ext0 neutral_options
        [⟨"a.png", .ok (.ImageRgb8 ⟨1, 1, [⟨0, 0, 0⟩]⟩), fun _ => .ok ()⟩,
         ⟨"b.png", .error "boom", fun _ => .ok ()⟩]).1.getLast? =
      some ⟨100, "Done", "complete"⟩ := by
  have h := batch_record_discipline ext0 neutral_options
    [⟨"a.png", .ok (.ImageRgb8 ⟨1, 1, [⟨0, 0, 0⟩]⟩), fun _ => .ok ()⟩,
     ⟨"b.png", .error "boom", fun _ => .ok ()⟩]
  exact ⟨h.1 0 (by decide), h.2.1, h.2.2⟩
